import Mathlib

/-!
# Vesper: the signing handler, the root-certificate store and `main`

A shallow embedding of `src/vesper/sign_new.go` (`fSignRequest`),
`src/vesper/rootcerts/rootcerts.go` (`RootCerts`, `getRootCertsFromSks`) and of
two parts of `src/vesper/main.go` (the sweep loop of the replay-attack cache,
serving and shutdown).

Conventions of the embedding

* Byte strings (`[]byte`, Go `string`) are Lean `String`s; a nil byte slice is `""`.
* Go's `error` is `Option GoError`, `none` being `nil`.
* `map[string]interface{}` is `GoMap`: `none` is the nil map, `some kvs` an
  association list of the entries.
* The goroutine plus channel-of-one pairs of `fSignRequest` are direct calls:
  the handler blocks on the channel right after starting the goroutine.
* Log calls are not modelled.
* Functions of the repository that are not part of the embedded files
  (`validatePayload`, `createSignature`, `signingCredentials.Signing`) and the
  UUID generator are fields of `World`.
* `encoding/json` is modelled by `jsonUnmarshal`, `jsonMarshal` and the struct
  encoders below.
-/

namespace Vesper

/-! ## Go values -/

/-- A Go `float64`.  A finite value is kept as the JSON number literal it was
decoded from; the three non-finite values are separate. -/
inductive Float64 where
  | finite (lit : String)
  | nan
  | posInf
  | negInf
  deriving Repr

/-- The dynamic values an `interface{}` holds in this program: what
`encoding/json` decodes to, plus `int64` (as produced by `time.Now().Unix()`). -/
inductive GoVal where
  | null
  | bool (b : Bool)
  | int (n : Int)
  | float (f : Float64)
  | str (s : String)
  | arr (xs : List GoVal)
  | map (kvs : List (String × GoVal))
  deriving Repr

/-- A `map[string]interface{}`; `none` is the nil map. -/
abbrev GoMap := Option (List (String × GoVal))

/-- The value of `m[k]` with its `ok` flag: `none` when the key is absent
(always so on the nil map). -/
def GoMap.index (m : GoMap) (k : String) : Option GoVal :=
  match m with
  | none => none
  | some kvs => kvs.lookup k

/-- Go `error` values.  `ioEOF` is the sentinel `io.EOF`; the other
constructors are the error types of `encoding/json` and errors built with
`fmt.Errorf` or `errors.New`. -/
inductive GoError where
  | ioEOF
  | jsonSyntaxError (msg : String)
  | jsonUnmarshalTypeError (msg : String)
  | jsonUnsupportedValueError (msg : String)
  | errorString (msg : String)
  deriving DecidableEq, Repr

deriving instance DecidableEq for Except

/-- The `Error()` method. -/
def GoError.Error : GoError → String
  | .ioEOF => "EOF"
  | .jsonSyntaxError msg => msg
  | .jsonUnmarshalTypeError msg => msg
  | .jsonUnsupportedValueError msg => msg
  | .errorString msg => msg

/-! ## `encoding/json`: encoding -/

/-- One lower-case hexadecimal digit. -/
def hexDigit (n : Nat) : Char :=
  if n < 10 then Char.ofNat (48 + n) else Char.ofNat (87 + n)

/-- The escape `\u00XX` of a byte below 0x80. -/
def escapeU00 (c : Char) : List Char :=
  ['\\', 'u', '0', '0', hexDigit (c.toNat / 16), hexDigit (c.toNat % 16)]

/-- How `encodeState.string` writes one character, with HTML escaping on (the
default of `json.Marshal` and of `Encoder.Encode`). -/
def encodeChar (c : Char) : List Char :=
  if c = '"' then ['\\', '"']
  else if c = '\\' then ['\\', '\\']
  else if c = '\n' then ['\\', 'n']
  else if c = '\r' then ['\\', 'r']
  else if c = '\t' then ['\\', 't']
  else if c.toNat < 32 ∨ c = '<' ∨ c = '>' ∨ c = '&' then escapeU00 c
  else if c.toNat = 8232 then ['\\', 'u', '2', '0', '2', '8']
  else if c.toNat = 8233 then ['\\', 'u', '2', '0', '2', '9']
  else [c]

/-- The JSON string literal for a Go string. -/
def encodeString (s : String) : String :=
  String.mk ('"' :: (s.toList.flatMap encodeChar ++ ['"']))

/-- Go's `<` on strings: lexicographic on the bytes, which for UTF-8 is
lexicographic on the code points. -/
def stringLess (a b : String) : Bool :=
  decide (a.toList < b.toList)

/-- Insert a map entry in key order (`encoding/json` writes map keys sorted). -/
def insertSorted {α : Type} (kv : String × α) : List (String × α) → List (String × α)
  | [] => [kv]
  | x :: xs => if stringLess kv.1 x.1 then kv :: x :: xs else x :: insertSorted kv xs

/-- The entries of a map in the order `encoding/json` writes them. -/
def sortKeys {α : Type} : List (String × α) → List (String × α)
  | [] => []
  | x :: xs => insertSorted x (sortKeys xs)

/-- Join encoded members with commas. -/
def commaJoin : List String → String
  | [] => ""
  | [a] => a
  | a :: b :: rest => a ++ "," ++ commaJoin (b :: rest)

/-- Run through encodings in order and stop at the first error. -/
def firstError : List (Except GoError String) → Except GoError (List String)
  | [] => .ok []
  | .error e :: _ => .error e
  | .ok a :: rest =>
    match firstError rest with
    | .error e => .error e
    | .ok parts => .ok (a :: parts)

/-- The member `"key":value` of an object, given the encoding of the value. -/
def encodeMember (kv : String × Except GoError String) : Except GoError String :=
  match kv.2 with
  | .error e => .error e
  | .ok a => .ok (encodeString kv.1 ++ ":" ++ a)

mutual
/-- The text `json.Marshal` produces for a value, or the error it returns: NaN
and the infinities are unsupported values.  Map entries are written in key
order, and the first failing entry in that order decides the error. -/
def jsonMarshal : GoVal → Except GoError String
  | .null => .ok "null"
  | .bool b => .ok (if b then "true" else "false")
  | .int n => .ok (toString n)
  | .float (.finite lit) => .ok lit
  | .float .nan => .error (.jsonUnsupportedValueError "json: unsupported value: NaN")
  | .float .posInf => .error (.jsonUnsupportedValueError "json: unsupported value: +Inf")
  | .float .negInf => .error (.jsonUnsupportedValueError "json: unsupported value: -Inf")
  | .str s => .ok (encodeString s)
  | .arr xs =>
    match firstError (jsonMarshalElems xs) with
    | .ok parts => .ok ("[" ++ commaJoin parts ++ "]")
    | .error e => .error e
  | .map kvs =>
    match firstError ((sortKeys (jsonMarshalMembers kvs)).map encodeMember) with
    | .ok parts => .ok ("\x7b" ++ commaJoin parts ++ "\x7d")
    | .error e => .error e
/-- The encodings of the elements of a slice, in order. -/
def jsonMarshalElems : List GoVal → List (Except GoError String)
  | [] => []
  | x :: xs => jsonMarshal x :: jsonMarshalElems xs
/-- The encodings of the values of map entries, each with its key. -/
def jsonMarshalMembers : List (String × GoVal) → List (String × Except GoError String)
  | [] => []
  | (k, x) :: xs => (k, jsonMarshal x) :: jsonMarshalMembers xs
end

/-- A `json.Marshal` of a `map[string]interface{}`; the nil map encodes as `null`. -/
def jsonMarshalMap (m : GoMap) : Except GoError String :=
  match m with
  | none => .ok "null"
  | some kvs => jsonMarshal (.map kvs)

/-! ## `encoding/json`: decoding -/

/-- The opening brace. -/
def lbrace : Char := Char.ofNat 123

/-- The closing brace. -/
def rbrace : Char := Char.ofNat 125

/-- JSON white space. -/
def isSpace (c : Char) : Bool :=
  c = ' ' || c = '\t' || c = '\r' || c = '\n'

/-- Drop leading white space. -/
def skipSpace : List Char → List Char
  | [] => []
  | c :: cs => if isSpace c then skipSpace cs else c :: cs

/-- The value of a hexadecimal digit. -/
def hexVal (c : Char) : Option Nat :=
  if 48 ≤ c.toNat ∧ c.toNat ≤ 57 then some (c.toNat - 48)
  else if 97 ≤ c.toNat ∧ c.toNat ≤ 102 then some (c.toNat - 87)
  else if 65 ≤ c.toNat ∧ c.toNat ≤ 70 then some (c.toNat - 55)
  else none

/-- The 16-bit unit written by four hexadecimal digits (`getu4`). -/
def getu4 (a b c d : Char) : Option Nat :=
  match hexVal a, hexVal b, hexVal c, hexVal d with
  | some x, some y, some z, some w => some (((x * 16 + y) * 16 + z) * 16 + w)
  | _, _, _, _ => none

/-- The character of a one-letter escape. -/
def unescape (e : Char) : Option Char :=
  if e = '"' then some '"'
  else if e = '\\' then some '\\'
  else if e = '/' then some '/'
  else if e = 'b' then some (Char.ofNat 8)
  else if e = 'f' then some (Char.ofNat 12)
  else if e = 'n' then some '\n'
  else if e = 'r' then some '\r'
  else if e = 't' then some '\t'
  else none

/-- The low half of a surrogate pair at the head of the input, if there is one:
the unit and what follows it. -/
def lowSurrogate : List Char → Option (Nat × List Char)
  | bs :: u :: a :: b :: c :: d :: rest =>
    if bs = '\\' ∧ u = 'u' then
      match getu4 a b c d with
      | some lo => if 56320 ≤ lo ∧ lo < 57344 then some (lo, rest) else none
      | none => none
    else none
  | _ => none

/-- Read a string literal after its opening quote: the decoded string and the
input after the closing quote.  Raw control characters and malformed escapes
are syntax errors; an unpaired surrogate decodes to U+FFFD.  Each step takes
at least one character, so a fuel of the input length is enough. -/
def scanString : Nat → List Char → List Char → Option (String × List Char)
  | 0, _, _ => none
  | _ + 1, [], _ => none
  | fuel + 1, c :: rest, acc =>
    if c = '"' then some (String.mk acc.reverse, rest)
    else if c = '\\' then
      match rest with
      | [] => none
      | e :: rest1 =>
        if e = 'u' then
          match rest1 with
          | a :: b :: c1 :: d :: rest2 =>
            match getu4 a b c1 d with
            | none => none
            | some n =>
              if 55296 ≤ n ∧ n < 57344 then
                match (if n < 56320 then lowSurrogate rest2 else none) with
                | some (lo, rest3) =>
                  scanString fuel rest3
                    (Char.ofNat (65536 + (n - 55296) * 1024 + (lo - 56320)) :: acc)
                | none => scanString fuel rest2 (Char.ofNat 65533 :: acc)
              else scanString fuel rest2 (Char.ofNat n :: acc)
          | _ => none
        else
          match unescape e with
          | some ch => scanString fuel rest1 (ch :: acc)
          | none => none
    else if c.toNat < 32 then none
    else scanString fuel rest (c :: acc)

/-- The leading decimal digits of the input, and the rest. -/
def takeDigits : List Char → List Char × List Char
  | [] => ([], [])
  | c :: cs =>
    if c.isDigit then ((takeDigits cs).1.cons c, (takeDigits cs).2) else ([], c :: cs)

/-- The number written by decimal digits. -/
def digitsVal (ds : List Char) : Nat :=
  ds.foldl (fun n c => n * 10 + (c.toNat - 48)) 0

/-- The least magnitude that `strconv.ParseFloat` rejects with a range error:
`2^1024 - 2^970`, halfway between the largest finite `float64` and `2^1024`. -/
def float64Limit : Nat :=
  179769313486231580793728971405303415079934132710037826936173778980444968292764750946649017977587207096330286416692887910946555547851940402630657488671505820681908902000708383676273854845817711531764475730270069855571366959622842914819860834936475292719074168444365510704342711559699508093042880177904174497792

/-- Whether `mant * 10 ^ e10` rounds to a finite `float64`. -/
def float64InRange (mant : Nat) (e10 : Int) : Bool :=
  if 0 ≤ e10 then decide (mant * 10 ^ e10.toNat < float64Limit)
  else decide (mant < float64Limit * 10 ^ (-e10).toNat)

/-- The integer part of a number: a single `0`, or digits starting with `1`-`9`. -/
def scanInt : List Char → Option (List Char × List Char)
  | [] => none
  | c :: cs =>
    if c = '0' then some (['0'], cs)
    else if c.isDigit then some ((takeDigits (c :: cs)).1, (takeDigits (c :: cs)).2)
    else none

/-- The optional fraction: the digits after the point (none when absent). -/
def scanFrac : List Char → Option (List Char × List Char)
  | [] => some ([], [])
  | c :: cs =>
    if c = '.' then
      if (takeDigits cs).1 = [] then none else some ((takeDigits cs).1, (takeDigits cs).2)
    else some ([], c :: cs)

/-- The optional exponent: its text, its value, and the rest. -/
def scanExp : List Char → Option (List Char × Int × List Char)
  | [] => some ([], 0, [])
  | c :: cs =>
    if c = 'e' ∨ c = 'E' then
      match cs with
      | [] => none
      | s :: cs1 =>
        if s = '+' ∨ s = '-' then
          if (takeDigits cs1).1 = [] then none
          else some (c :: s :: (takeDigits cs1).1,
                     (if s = '-' then -(digitsVal (takeDigits cs1).1 : Int)
                      else (digitsVal (takeDigits cs1).1 : Int)),
                     (takeDigits cs1).2)
        else
          if (takeDigits cs).1 = [] then none
          else some (c :: (takeDigits cs).1, (digitsVal (takeDigits cs).1 : Int), (takeDigits cs).2)
    else some ([], 0, c :: cs)

/-- Read a number literal whose sign has been taken off: the `float64` it
decodes to (an infinity when out of range) and the input after it. -/
def scanNumber (neg : Bool) (cs : List Char) : Option (Float64 × List Char) :=
  match scanInt cs with
  | none => none
  | some (ip, r1) =>
    match scanFrac r1 with
    | none => none
    | some (fp, r2) =>
      match scanExp r2 with
      | none => none
      | some (et, ev, r3) =>
        if float64InRange (digitsVal (ip ++ fp)) (ev - fp.length) then
          some (.finite (String.mk ((if neg then ['-'] else []) ++ ip
                  ++ (if fp = [] then [] else '.' :: fp) ++ et)), r3)
        else some ((if neg then .negInf else .posInf), r3)

/-- Store an entry in a map: a repeated key keeps its place and takes the new
value. -/
def setKey (k : String) (v : GoVal) : List (String × GoVal) → List (String × GoVal)
  | [] => [(k, v)]
  | (k1, v1) :: rest => if k1 = k then (k, v) :: rest else (k1, v1) :: setKey k v rest

/-- Take a fixed word off the head of the input. -/
def dropWord : List Char → List Char → Option (List Char)
  | [], cs => some cs
  | _ :: _, [] => none
  | w :: ws, c :: cs => if w = c then dropWord ws cs else none

mutual
/-- Read one JSON value (white space before it allowed): the value as
`encoding/json` decodes it into an `interface{}`, and the input after it.
`none` is a syntax error.  The fuel bounds the depth of the recursion.  Every
level of it owns a character of the input of its own (the first character of a
scalar, the opening bracket or brace for a value, the closing one for the first
round of elements or members, the comma for each further round), so the depth
never exceeds the length of the input and `jsonUnmarshal` never runs out. -/
def parseValue : Nat → List Char → Option (GoVal × List Char)
  | 0, _ => none
  | fuel + 1, cs =>
    match skipSpace cs with
    | [] => none
    | c :: rest =>
      if c = lbrace then
        match skipSpace rest with
        | [] => none
        | c1 :: rest1 =>
          if c1 = rbrace then some (.map [], rest1)
          else parseMembers fuel (c1 :: rest1) []
      else if c = '[' then
        match skipSpace rest with
        | [] => none
        | c1 :: rest1 =>
          if c1 = ']' then some (.arr [], rest1)
          else parseElems fuel (c1 :: rest1) []
      else if c = '"' then
        match scanString rest.length rest [] with
        | some (s, rest1) => some (.str s, rest1)
        | none => none
      else if c = 't' then (dropWord ['r', 'u', 'e'] rest).map (fun r => (.bool true, r))
      else if c = 'f' then (dropWord ['a', 'l', 's', 'e'] rest).map (fun r => (.bool false, r))
      else if c = 'n' then (dropWord ['u', 'l', 'l'] rest).map (fun r => (.null, r))
      else if c = '-' then
        (scanNumber true rest).map (fun r => (.float r.1, r.2))
      else (scanNumber false (c :: rest)).map (fun r => (.float r.1, r.2))
/-- Read the members of an object up to and including the closing brace; the
input starts at a key. -/
def parseMembers : Nat → List Char → List (String × GoVal) → Option (GoVal × List Char)
  | 0, _, _ => none
  | fuel + 1, cs, acc =>
    match cs with
    | [] => none
    | q :: rest =>
      if q = '"' then
        match scanString rest.length rest [] with
        | none => none
        | some (k, rest1) =>
          match skipSpace rest1 with
          | [] => none
          | colon :: rest2 =>
            if colon = ':' then
              match parseValue fuel rest2 with
              | none => none
              | some (v, rest3) =>
                match skipSpace rest3 with
                | [] => none
                | sep :: rest4 =>
                  if sep = rbrace then some (.map (setKey k v acc), rest4)
                  else if sep = ',' then parseMembers fuel (skipSpace rest4) (setKey k v acc)
                  else none
            else none
      else none
/-- Read the elements of an array up to and including the closing bracket. -/
def parseElems : Nat → List Char → List GoVal → Option (GoVal × List Char)
  | 0, _, _ => none
  | fuel + 1, cs, acc =>
    match parseValue fuel cs with
    | none => none
    | some (v, rest) =>
      match skipSpace rest with
      | [] => none
      | sep :: rest1 =>
        if sep = ']' then some (.arr (acc ++ [v]), rest1)
        else if sep = ',' then parseElems fuel rest1 (acc ++ [v])
        else none
end

mutual
/-- Whether a decoded value holds a number that was out of the `float64`
range. -/
def hasRangeError : GoVal → Bool
  | .float (.finite _) => false
  | .float _ => true
  | .arr xs => hasRangeErrorElems xs
  | .map kvs => hasRangeErrorMembers kvs
  | _ => false
/-- The same for the elements of a slice. -/
def hasRangeErrorElems : List GoVal → Bool
  | [] => false
  | x :: xs => hasRangeError x || hasRangeErrorElems xs
/-- The same for the entries of a map. -/
def hasRangeErrorMembers : List (String × GoVal) → Bool
  | [] => false
  | (_, x) :: xs => hasRangeError x || hasRangeErrorMembers xs
end

/-- A `json.Unmarshal(data, &r)` with `r` a nil `map[string]interface{}`: the
error returned and, when it is nil, the value of `r` afterwards.

* Input that is not exactly one JSON value (the empty input included) is a
  `*json.SyntaxError`; `json.Unmarshal` never returns `io.EOF`.
* `null` leaves `r` nil; an object fills it.
* Any other value, and a number that does not fit a `float64`, is a
  `*json.UnmarshalTypeError`.

Of the error texts only the one for input without any value is Go's own; the
handlers look at the kind of the error, never at its text. -/
def jsonUnmarshal (data : String) : Except GoError GoMap :=
  match parseValue (data.length + 1) data.toList with
  | none =>
    if skipSpace data.toList = [] then .error (.jsonSyntaxError "unexpected end of JSON input")
    else .error (.jsonSyntaxError "invalid character or unexpected end of JSON input")
  | some (v, rest) =>
    if skipSpace rest ≠ [] then .error (.jsonSyntaxError "invalid character after top-level value")
    else
      match v with
      | .null => .ok none
      | .map kvs =>
        if hasRangeErrorMembers kvs then
          .error (.jsonUnmarshalTypeError "json: cannot unmarshal number into Go value of type float64")
        else .ok (some kvs)
      | _ => .error (.jsonUnmarshalTypeError
                "json: cannot unmarshal into Go value of type map[string]interface \x7b\x7d")

/-- The error of a Go call returning `(value, error)`: `nil` on success. -/
def errOf {α : Type} (r : Except GoError α) : Option GoError :=
  match r with
  | .ok _ => none
  | .error e => some e

/-- The value of a Go call returning `(value, error)`; `zero` stands for the
zero value left or returned on failure. -/
def valOf {α : Type} (zero : α) (r : Except GoError α) : α :=
  match r with
  | .ok a => a
  | .error _ => zero

/-! ## Types of package `main` -/

/-- The standard error object (`main.go`). -/
structure ErrorBlob where
  ReasonCode : String
  ReasonString : String
  deriving DecidableEq, Repr

/-- Modelled from the spec: the declaration of `SResponse` is not among the
sources; its one field `SigningResponse` is written under the key
`signingResponse` (spec section 6, HTTP surface). -/
structure SResponse where
  SigningResponse : ErrorBlob
  deriving DecidableEq, Repr

/-- Modelled from the spec: the declaration of `ShakenHdr` is not among the
sources; its fields are written as `alg`, `ppt`, `typ`, `x5u`, in this order
(spec section 3, PASSporT header). -/
structure ShakenHdr where
  Alg : String
  Ppt : String
  Typ : String
  X5u : String
  deriving DecidableEq, Repr

/-- The encoding of an `ErrorBlob`: the fields in declaration order under their
tags.  Encoding a struct of strings cannot fail. -/
def jsonMarshalErrorBlob (b : ErrorBlob) : String :=
  "\x7b\"reasonCode\":" ++ encodeString b.ReasonCode
    ++ ",\"reasonString\":" ++ encodeString b.ReasonString ++ "\x7d"

/-- The encoding of an `SResponse`. -/
def jsonMarshalSResponse (r : SResponse) : Except GoError String :=
  .ok ("\x7b\"signingResponse\":" ++ jsonMarshalErrorBlob r.SigningResponse ++ "\x7d")

/-- The encoding of a `ShakenHdr`. -/
def jsonMarshalShakenHdr (h : ShakenHdr) : Except GoError String :=
  .ok ("\x7b\"alg\":" ++ encodeString h.Alg ++ ",\"ppt\":" ++ encodeString h.Ppt
    ++ ",\"typ\":" ++ encodeString h.Typ ++ ",\"x5u\":" ++ encodeString h.X5u ++ "\x7d")

/-! ## The request context (`fasthttp.RequestCtx`) -/

/-- Header fields, one value per name. -/
abbrev Header := List (String × String)

/-- The value of a header field, empty when the field is absent. -/
def Header.Peek (h : Header) (key : String) : String :=
  (h.lookup key).getD ""

/-- Set a header field, replacing any value it had. -/
def Header.Set (h : Header) (key value : String) : Header :=
  h.filter (fun kv => kv.1 ≠ key) ++ [(key, value)]

/-- The parts of a `fasthttp.RequestCtx` the handler touches.  `body` lists the
chunks written to the response body, one per write, oldest first. -/
structure RequestCtx where
  requestHeader : Header
  postBody : String
  remoteAddr : String
  responseHeader : Header
  statusCode : Nat
  body : List String
  deriving DecidableEq, Repr

/-- The context the server hands to a handler for a request: no response header
set by the handler yet, status 200, empty body. -/
def RequestCtx.incoming (requestHeader : Header) (postBody remoteAddr : String) : RequestCtx :=
  { requestHeader := requestHeader, postBody := postBody, remoteAddr := remoteAddr,
    responseHeader := [], statusCode := 200, body := [] }

/-- A `ctx.Response.Header.Set(key, value)`. -/
def RequestCtx.SetResponseHeader (ctx : RequestCtx) (key value : String) : RequestCtx :=
  { ctx with responseHeader := ctx.responseHeader.Set key value }

/-- A `ctx.SetStatusCode(code)`. -/
def RequestCtx.SetStatusCode (ctx : RequestCtx) (code : Nat) : RequestCtx :=
  { ctx with statusCode := code }

/-- A `json.NewEncoder(ctx).Encode(v)`, given the encoding of `v`: the text and
a newline are written to the body in one write; when the encoding fails nothing
is written (the handler drops the error `Encode` returns). -/
def RequestCtx.Encode (ctx : RequestCtx) (encoded : Except GoError String) : RequestCtx :=
  match encoded with
  | .ok text => { ctx with body := ctx.body ++ [text ++ "\n"] }
  | .error _ => ctx

/-! ## The signing handler (`sign_new.go`) -/

/-- What the handler is given by the rest of the program at one request. -/
structure World where
  /-- The `String()` of the UUID that `uuid.NewV1()` generates. -/
  uuidNewV1 : String
  /-- The function `validatePayload(r, traceID, clientIP)`: the ordered map, the
  error code and the error (the four results the handler ignores are left out). -/
  validatePayload : GoMap → String → String → GoMap × String × Option GoError
  /-- The pair `(x5u, privateKey)` that `signingCredentials.Signing()` returns. -/
  Signing : String × String
  /-- The function `createSignature(hdrBytes, claimsBytes, key)`: the canonical
  string, the signature and the error. -/
  createSignature : String → String → String → String × String × Option GoError

/-- The calls the handler makes to the rest of the program, with their
arguments. -/
inductive Call where
  | uuidNewV1
  | validatePayload (r : GoMap) (traceID clientIP : String)
  | Signing
  | createSignature (hdrBytes claimsBytes key : String)

/-- A handler run: the context when the handler returns and the calls it made,
oldest first. -/
structure Outcome where
  ctx : RequestCtx
  calls : List Call

/-- The response map the handler builds on success. -/
def identityResponse (identity : String) : GoVal :=
  .map [("signingResponse", .map [("identity", .str identity)])]

/-- The handler `fSignRequest`. -/
def fSignRequest (w : World) (ctx0 : RequestCtx) : Outcome :=
  let ctx1 := ctx0.SetResponseHeader "Access-Control-Allow-Origin" "*"
  let ctx2 := ctx1.SetResponseHeader "Content-Type" "application/json"
  let clientIP := ctx2.remoteAddr
  let peeked := ctx2.requestHeader.Peek "Trace-Id"
  let traceID := if peeked = "" then "VESPER-" ++ w.uuidNewV1 else peeked
  let calls0 : List Call := if peeked = "" then [.uuidNewV1] else []
  let ctx := ctx2.SetResponseHeader "Trace-Id" traceID
  -- var r map[string]interface{}; err := json.Unmarshal(ctx.PostBody(), &r)
  let r : GoMap := valOf none (jsonUnmarshal ctx.postBody)
  let err : Option GoError := errOf (jsonUnmarshal ctx.postBody)
  if err = some GoError.ioEOF then
    -- empty request body
    { ctx := (ctx.SetStatusCode 400).Encode
        (jsonMarshalSResponse ⟨⟨"VESPER-4001", "empty request body"⟩⟩),
      calls := calls0 }
  else if err ≠ none then
    { ctx := (ctx.SetStatusCode 400).Encode
        (jsonMarshalSResponse ⟨⟨"VESPER-4002", "Unable to parse request body"⟩⟩),
      calls := calls0 }
  else
    -- validation
    let result := w.validatePayload r traceID clientIP
    let calls1 := calls0 ++ [.validatePayload r traceID clientIP]
    match result.2.2 with
    | some resultErr =>
      { ctx := (ctx.SetStatusCode 400).Encode
          (jsonMarshalSResponse ⟨⟨result.2.1, resultErr.Error⟩⟩),
        calls := calls1 }
    | none =>
      let x := w.Signing.1
      let p := w.Signing.2
      let calls2 := calls1 ++ [.Signing]
      let hdr : ShakenHdr := { Alg := "ES256", Ppt := "shaken", Typ := "passport", X5u := x }
      -- hdrBytes, err := json.Marshal(hdr)
      let hdrBytes := valOf "" (jsonMarshalShakenHdr hdr)
      let err : Option GoError := errOf (jsonMarshalShakenHdr hdr)
      if err ≠ none then
        { ctx := (ctx.SetStatusCode 500).Encode
            (jsonMarshalSResponse ⟨⟨"VESPER-5050", "error in converting header to byte array"⟩⟩),
          calls := calls2 }
      else
        -- claimsBytes, _ := json.Marshal(result.om); the test below is on `err`
        let claimsBytes := valOf "" (jsonMarshalMap result.1)
        if err ≠ none then
          { ctx := (ctx.SetStatusCode 500).Encode
              (jsonMarshalSResponse ⟨⟨"VESPER-5051", "error in converting claims to byte array"⟩⟩),
            calls := calls2 }
        else
          let signRes := w.createSignature hdrBytes claimsBytes p
          let calls3 := calls2 ++ [.createSignature hdrBytes claimsBytes p]
          if signRes.2.2 ≠ none then
            { ctx := (ctx.SetStatusCode 500).Encode
                (jsonMarshalSResponse ⟨⟨"VESPER-5052", "error in signing request"⟩⟩),
              calls := calls3 }
          else
            { ctx := (ctx.SetStatusCode 200).Encode
                (jsonMarshal (identityResponse
                  (signRes.1 ++ "." ++ signRes.2.1 ++ ";info=<" ++ x ++ ">;alg=ES256"))),
              calls := calls3 }

/-! ## The Identity-header parameters (`main.go`, `init`) -/

/-- The pieces of a string between the occurrences of a separator
(`strings.Split`). -/
def splitOn (sep : Char) : List Char → List (List Char)
  | [] => [[]]
  | c :: cs =>
    if c = sep then [] :: splitOn sep cs
    else
      match splitOn sep cs with
      | [] => [[c]]
      | piece :: pieces => (c :: piece) :: pieces

/-- The pieces of an Identity header between its semicolons. -/
def identityTokens (identity : String) : List String :=
  (splitOn ';' identity.toList).map String.mk

/-- The regular expression `^info=<..*>$`: `info=<`, then one or more characters
none of which is a newline, then `>` at the very end. -/
def regexInfo (s : String) : Bool :=
  match dropWord "info=<".toList s.toList with
  | none => false
  | some rest =>
    decide (2 ≤ rest.length) && (rest.getLast? == some '>')
      && rest.dropLast.all (fun c => c ≠ '\n')

/-- The regular expression `^alg=ES256$`. -/
def regexAlg (s : String) : Bool :=
  s = "alg=ES256"

/-- The regular expression `^ppt=shaken$`. -/
def regexPpt (s : String) : Bool :=
  s = "ppt=shaken"

/-! ## The root-certificate store (`rootcerts/rootcerts.go`) -/

/-- A certificate, as the bytes it was parsed from. -/
abbrev Certificate := String

/-- An `x509.CertPool`: the certificates it holds. -/
abbrev CertPool := List Certificate

/-- An `*http.Response` after its body has been read: the `Content-Type` is what
`resp.Header.Get("Content-Type")` returns, `readAll` what
`ioutil.ReadAll(resp.Body)` returns. -/
structure HttpResponse where
  StatusCode : Nat
  Status : String
  contentType : String
  readAll : Except GoError String

/-- What `getRootCertsFromSks` is given by the rest of the program. -/
structure SksWorld where
  /-- The pair `(url, token)` that `sksCredentials.GetSksCredentials()` returns. -/
  GetSksCredentials : String × String
  /-- The error of `http.NewRequest("GET", url, nil)`. -/
  NewRequest : String → Option GoError
  /-- The result of `httpClient.Do(req)` for a URL and an `X-Vault-Token`. -/
  Do : String → String → Except GoError HttpResponse
  /-- The certificates `AppendCertsFromPEM` finds in a PEM text. -/
  certsFromPEM : String → List Certificate

/-- A `strings.Contains(s, sub)`. -/
def stringsContains (s sub : String) : Bool :=
  s.toList.tails.any (fun t => (dropWord sub.toList t).isSome)

/-- A `certs.AppendCertsFromPEM(pem)`: the pool afterwards and whether a
certificate was appended. -/
def AppendCertsFromPEM (w : SksWorld) (certs : CertPool) (pem : String) : CertPool × Bool :=
  (certs ++ w.certsFromPEM pem, !(w.certsFromPEM pem).isEmpty)

/-- The function `getRootCertsFromSks`: the pool (`none` is nil) and the error.
The error texts are the fixed parts of the formats; the values formatted into
them are left out. -/
def getRootCertsFromSks (w : SksWorld) : Option CertPool × Option GoError :=
  let certs : CertPool := []
  let u := w.GetSksCredentials.1
  let t := w.GetSksCredentials.2
  let url := u ++ "/whitelist"
  match w.NewRequest url with
  | some _ => (none, some (.errorString "http.NewRequest failed"))
  | none =>
    match w.Do url t with
    | .error _ => (none, some (.errorString "GET failed"))
    | .ok resp =>
      match resp.readAll with
      | .error _ => (none, some (.errorString "response body (from SKS)"))
      | .ok rb =>
        if rb.length > 0 then
          let c := resp.contentType
          -- var s map[string]interface{}, set only when the body is decoded
          let decoded : Except GoError GoMap :=
            if stringsContains c "application/json" then jsonUnmarshal rb else .ok none
          match decoded with
          | .error _ =>
            (none, some (.errorString "unable to parse JSON object in response body (from SKS)"))
          | .ok s =>
            if resp.StatusCode = 200 then
              match s.index "data" with
              | some (.map r1) =>
                match r1.lookup "rootcerts" with
                | some (.str pem) =>
                  if (AppendCertsFromPEM w certs pem).2 then
                    (some (AppendCertsFromPEM w certs pem).1, none)
                  else (none, some (.errorString "No certs appended"))
                | some _ =>
                  (none, some (.errorString "\"rootcerts\" field MUST be a string"))
                | none => (none, some (.errorString "\"rootcerts\" field missing"))
              | some _ => (none, some (.errorString "\"data\" field MUST be a map"))
              | none => (none, some (.errorString "\"data\" field missing"))
            else (none, some (.errorString "response from SKS"))
        else (none, some (.errorString "nothing read from response body (from SKS)"))

/-- The store of root certificates; the lock it embeds is not modelled. -/
structure RootCerts where
  certs : Option CertPool

/-- The method `FetchRootCertsFromSks`: the store afterwards and the error
returned. -/
def RootCerts.FetchRootCertsFromSks (rc : RootCerts) (w : SksWorld) :
    RootCerts × Option GoError :=
  let c := (getRootCertsFromSks w).1
  let err := (getRootCertsFromSks w).2
  if err = none then ({ rc with certs := c }, err) else (rc, err)

/-- The method `Root`. -/
def RootCerts.Root (rc : RootCerts) : Option CertPool :=
  rc.certs

/-! ## Reading the handler: definitions used in the statements -/

/-- The trace identifier the handler settles on: the request's `Trace-Id` when
it is not empty, otherwise `VESPER-` and the generated UUID. -/
def requestTraceID (w : World) (ctx : RequestCtx) : String :=
  if ctx.requestHeader.Peek "Trace-Id" = "" then "VESPER-" ++ w.uuidNewV1
  else ctx.requestHeader.Peek "Trace-Id"

/-- The calls made while settling the trace identifier. -/
def traceCalls (ctx : RequestCtx) : List Call :=
  if ctx.requestHeader.Peek "Trace-Id" = "" then [.uuidNewV1] else []

/-- The context after the three response headers are set. -/
def stamped (w : World) (ctx : RequestCtx) : RequestCtx :=
  ((ctx.SetResponseHeader "Access-Control-Allow-Origin" "*").SetResponseHeader
    "Content-Type" "application/json").SetResponseHeader "Trace-Id" (requestTraceID w ctx)

/-- The context after an error response with the given status is written. -/
def errorReply (w : World) (ctx : RequestCtx) (code : Nat) (blob : ErrorBlob) : RequestCtx :=
  ((stamped w ctx).SetStatusCode code).Encode (jsonMarshalSResponse ⟨blob⟩)

/-- Whether a call is to `validatePayload`. -/
def Call.isValidatePayload : Call → Bool
  | .validatePayload _ _ _ => true
  | _ => false

/-- Whether a call is to `signingCredentials.Signing`. -/
def Call.isSigning : Call → Bool
  | .Signing => true
  | _ => false

/-- Whether a call is to `createSignature`. -/
def Call.isCreateSignature : Call → Bool
  | .createSignature _ _ _ => true
  | _ => false

/-- The context after the success response is written. -/
def successReply (w : World) (ctx : RequestCtx) (identity : String) : RequestCtx :=
  ((stamped w ctx).SetStatusCode 200).Encode (jsonMarshal (identityResponse identity))

/-- The PASSporT header text: the encoding of `alg`, `ppt`, `typ`, `x5u`. -/
def passportHeader (x5u : String) : String :=
  "\x7b\"alg\":\"ES256\",\"ppt\":\"shaken\",\"typ\":\"passport\",\"x5u\":"
    ++ encodeString x5u ++ "\x7d"

/-- The calls of a run that reaches `createSignature`. -/
def signingCalls (w : World) (ctx : RequestCtx) (r om : GoMap) : List Call :=
  traceCalls ctx ++ [.validatePayload r (requestTraceID w ctx) ctx.remoteAddr, .Signing,
    .createSignature (passportHeader w.Signing.1) (valOf "" (jsonMarshalMap om)) w.Signing.2]

/-- The text written for an error response. -/
def errorText (code reason : String) : String :=
  "\x7b\"signingResponse\":\x7b\"reasonCode\":" ++ encodeString code
    ++ ",\"reasonString\":" ++ encodeString reason ++ "\x7d\x7d" ++ "\n"

/-- The text written for a success response. -/
def identityText (identity : String) : String :=
  "\x7b\"signingResponse\":\x7b\"identity\":" ++ encodeString identity ++ "\x7d\x7d" ++ "\n"

/-- A stand-in for the rest of the program, for evaluating the handler: the
validator accepts any body with an object under `signingRequest` and returns
that object; the signer returns fixed text. -/
def sampleWorld : World :=
  { uuidNewV1 := "6ba7b810-9dad-11d1-80b4-00c04fd430c8"
    validatePayload := fun r _ _ =>
      match r.index "signingRequest" with
      | some (.map claims) => (some claims, "", none)
      | _ => (none, "VESPER-4003", some (.errorString "request payload is invalid"))
    Signing := ("https://cr.example.com/cert.pem", "PRIVATE-KEY")
    createSignature := fun _ _ key =>
      if key = "PRIVATE-KEY" then ("aGRy.Y2xhaW1z", "c2ln", none)
      else ("", "", some (.errorString "unable to sign")) }

/-- The body of the sign happy path of the spec (section 8, scenario 1). -/
def sampleBody : String :=
  "\x7b\"signingRequest\":\x7b\"attest\":\"A\",\"orig\":\x7b\"tn\":\"12155551212\"\x7d,\"dest\":\x7b\"tn\":[\"12155551213\"]\x7d,\"iat\":1577836800,\"origid\":\"123e4567-e89b-12d3-a456-426614174000\"\x7d\x7d"

/-- The happy-path request, without a `Trace-Id`. -/
def sampleRequest : RequestCtx :=
  RequestCtx.incoming [] sampleBody "192.0.2.1:40000"

/-- Whether a call is to `uuid.NewV1`. -/
def Call.isUuidNewV1 : Call → Bool
  | .uuidNewV1 => true
  | _ => false

/-- The conditions under which a response of the key service is accepted:
status 200, a non-empty body, a `Content-Type` containing `application/json`, a
body that decodes to an object whose `data` is an object whose `rootcerts` is a
string, and at least one certificate in that PEM text. -/
def rootsAccepted (w : SksWorld) (resp : HttpResponse) (rb : String) : Prop :=
  resp.StatusCode = 200 ∧ rb ≠ "" ∧ stringsContains resp.contentType "application/json" = true
    ∧ ∃ s data pem, jsonUnmarshal rb = .ok (some s) ∧ s.lookup "data" = some (.map data)
        ∧ data.lookup "rootcerts" = some (.str pem) ∧ w.certsFromPEM pem ≠ []

/-- A key service answering every request with the given response; one
certificate is found in the text `-----BEGIN CERTIFICATE-----`, none elsewhere. -/
def sampleSks (status : Nat) (contentType body : String) : SksWorld :=
  { GetSksCredentials := ("https://sks.example.com/v1", "token")
    NewRequest := fun _ => none
    Do := fun _ _ => .ok { StatusCode := status, Status := "", contentType := contentType,
                            readAll := .ok body }
    certsFromPEM := fun pem => if pem = "-----BEGIN CERTIFICATE-----" then ["root-1"] else [] }

/-- A world whose validator accepts every request and returns a claim map that
`json.Marshal` rejects: `iat` is the `float64` NaN. -/
def nanWorld : World :=
  { sampleWorld with
    validatePayload := fun _ _ _ => (some [("iat", .float .nan)], "", none) }

/-! ## The sweep of the replay-attack cache (`main.go`, `main`) -/

/-- What the `select` of the sweep loop receives: a tick of the ticker, with the
wall-clock UNIX second it was delivered at, or the stop signal. -/
inductive SweepEvent where
  | tick (deliveredAt : Int)
  | stop
  deriving DecidableEq, Repr

/-- Whether an event is a tick. -/
def SweepEvent.isTick : SweepEvent → Bool
  | .tick _ => true
  | .stop => false

/-- The sweep goroutine: its local `t`, the thresholds it has passed to
`replayAttackCache.Remove` (oldest first), and whether it has returned.

`t` is an `int64` that starts at a UNIX second and grows by one per tick;
ticks are at least a second apart, so the end of its range is out of reach and
the sums are taken in the integers. -/
structure SweepState where
  t : Int
  removeCalls : List Int
  returned : Bool
  deriving DecidableEq, Repr

/-- The goroutine before its loop: `t := time.Now().Unix()`. -/
def SweepState.start (t0 : Int) : SweepState :=
  { t := t0, removeCalls := [], returned := false }

/-- One round of the loop: on a tick `replayAttackCache.Remove(t)` and then
`t += 1`; on stop the goroutine returns.  Neither the time a tick carries nor
the interval of the ticker is read. -/
def sweepStep (s : SweepState) : SweepEvent → SweepState
  | .tick _ =>
    if s.returned then s
    else { s with removeCalls := s.removeCalls ++ [s.t], t := s.t + 1 }
  | .stop => { s with returned := true }

/-- The goroutine run on the events its `select` receives, in order.  The
configured interval only decides when the ticker delivers; every timing is an
event list. -/
def sweepLoop (t0 : Int) (events : List SweepEvent) : SweepState :=
  events.foldl sweepStep (SweepState.start t0)

/-! ## Serving and shutdown (`main.go`, `main`) -/

/-- Modelled from the spec: the type of `configuration.ConfigurationInstance()`
is not among the sources; these are the options `main` reads to serve (spec
section 6, configuration file). -/
structure Configuration where
  HttpHost : String
  HttpPort : String
  SslCertFile : String
  SslKeyFile : String
  deriving DecidableEq, Repr

/-- Go's `unicode.IsSpace`. -/
def unicodeIsSpace (c : Char) : Bool :=
  (9 ≤ c.toNat && c.toNat ≤ 13) || c.toNat = 32 || c.toNat = 133 || c.toNat = 160
    || c.toNat = 5760 || (8192 ≤ c.toNat && c.toNat ≤ 8202) || c.toNat = 8232
    || c.toNat = 8233 || c.toNat = 8239 || c.toNat = 8287 || c.toNat = 12288

/-- A `strings.TrimSpace(s)`. -/
def stringsTrimSpace (s : String) : String :=
  String.mk ((s.toList.dropWhile unicodeIsSpace).reverse.dropWhile unicodeIsSpace).reverse

/-- An `http.Handler`: the routes it serves. -/
structure HttpHandler where
  routes : List (String × String)
  deriving DecidableEq, Repr

/-- The value `handler`: the CORS wrapper around the router of `main`. -/
def mainHandler : HttpHandler :=
  { routes := [("GET", "/v1/version"), ("GET", "/stir/v1/stats"), ("POST", "/stir/v1/signing"),
      ("POST", "/stir/v1/verification"), ("POST", "/stir/v1/resetstats")] }

/-- An `http.Server` value: the two fields `main` sets; `none` is the nil
handler. -/
structure HttpServer where
  Addr : String
  Handler : Option HttpHandler
  deriving DecidableEq, Repr

/-- The zero value of `http.Server`, as declared by `var srv http.Server`. -/
def HttpServer.zero : HttpServer :=
  { Addr := "", Handler := none }

/-- The signals `main` is notified of. -/
inductive Signal where
  | SIGINT
  | SIGTERM
  deriving DecidableEq, Repr

/-- What the final `select` of `main` receives. -/
inductive MainEvent where
  | serveError (err : GoError)
  | signal (sig : Signal)
  deriving DecidableEq, Repr

/-- The method calls `main` and its serving goroutine make on servers. -/
inductive ServerCall where
  | ListenAndServe (srv : HttpServer)
  | ListenAndServeTLS (srv : HttpServer) (certFile keyFile : String)
  | Shutdown (srv : HttpServer) (timeoutSeconds : Nat)
  deriving DecidableEq, Repr

/-- The server a call is made on. -/
def ServerCall.server : ServerCall → HttpServer
  | .ListenAndServe srv => srv
  | .ListenAndServeTLS srv _ _ => srv
  | .Shutdown srv _ => srv

/-- Whether a call is a `Shutdown`. -/
def ServerCall.isShutdown : ServerCall → Bool
  | .Shutdown _ _ => true
  | _ => false

/-- The serving part of `main`, from `var srv http.Server` on: the calls made
on servers, oldest first, given what the final `select` receives.  Each serving
goroutine declares a server of its own with `srv := &http.Server{...}`; the
`srv` of `main` stays the zero value and is the one shut down. -/
def mainServe (cfg : Configuration) (ev : MainEvent) : List ServerCall :=
  let srv : HttpServer := HttpServer.zero
  let started : ServerCall :=
    if (stringsTrimSpace cfg.SslCertFile).length > 0
        ∧ (stringsTrimSpace cfg.SslKeyFile).length > 0 then
      let httpPort :=
        if (stringsTrimSpace cfg.HttpPort).length > 0 then ":" ++ cfg.HttpPort else ":443"
      let srv1 : HttpServer := { Addr := httpPort, Handler := some mainHandler }
      .ListenAndServeTLS srv1 cfg.SslCertFile cfg.SslKeyFile
    else
      let httpPort := if (stringsTrimSpace cfg.HttpPort).length > 0 then cfg.HttpPort else "80"
      let httpHost :=
        if (stringsTrimSpace cfg.HttpHost).length > 0 then cfg.HttpHost else "127.0.0.1"
      let hostPort := httpHost ++ ":" ++ httpPort
      let srv1 : HttpServer := { Addr := hostPort, Handler := some mainHandler }
      .ListenAndServe srv1
  match ev with
  | .serveError _ => [started]
  | .signal _ => [started, .Shutdown srv 15]

/-- A world like `sampleWorld` whose signer fails: the key it is given is not
the one it knows. -/
def revokedKeyWorld : World :=
  { sampleWorld with Signing := ("https://cr.example.com/cert.pem", "REVOKED-KEY") }

/-- A configuration for plain HTTP on port 9000 of every interface. -/
def sampleConfiguration : Configuration :=
  { HttpHost := "0.0.0.0", HttpPort := "9000", SslCertFile := "", SslKeyFile := " " }

/-! ## Lemmas and theorems -/

@[simp]
theorem errOf_ok {α : Type} (a : α) : errOf (.ok a : Except GoError α) = none := rfl

@[simp]
theorem errOf_error {α : Type} (e : GoError) :
    errOf (.error e : Except GoError α) = some e := rfl

@[simp]
theorem valOf_ok {α : Type} (z a : α) : valOf z (.ok a : Except GoError α) = a := rfl

@[simp]
theorem valOf_error {α : Type} (z : α) (e : GoError) :
    valOf z (.error e : Except GoError α) = z := rfl

theorem jsonUnmarshal_error_ne_EOF (data : String) (e : GoError)
    (h : jsonUnmarshal data = .error e) : e ≠ GoError.ioEOF := by
  intro he
  subst he
  unfold jsonUnmarshal at h
  repeat' split at h
  all_goals cases h

theorem fSignRequest_decode_error (w : World) (ctx : RequestCtx) (e : GoError)
    (h : jsonUnmarshal ctx.postBody = .error e) :
    fSignRequest w ctx =
      { ctx := errorReply w ctx 400 ⟨"VESPER-4002", "Unable to parse request body"⟩,
        calls := traceCalls ctx } := by
  have hne := jsonUnmarshal_error_ne_EOF _ _ h
  simp [fSignRequest, h, hne, errorReply, stamped, requestTraceID, traceCalls,
    RequestCtx.SetResponseHeader]

theorem fSignRequest_invalid (w : World) (ctx : RequestCtx) (r : GoMap) (e : GoError)
    (h : jsonUnmarshal ctx.postBody = .ok r)
    (hv : (w.validatePayload r (requestTraceID w ctx) ctx.remoteAddr).2.2 = some e) :
    fSignRequest w ctx =
      { ctx := errorReply w ctx 400
          ⟨(w.validatePayload r (requestTraceID w ctx) ctx.remoteAddr).2.1, e.Error⟩,
        calls := traceCalls ctx
          ++ [.validatePayload r (requestTraceID w ctx) ctx.remoteAddr] } := by
  simp only [requestTraceID] at hv
  simp [fSignRequest, h, errorReply, stamped, requestTraceID, traceCalls,
    RequestCtx.SetResponseHeader, hv]

theorem jsonMarshalShakenHdr_eq (x : String) :
    jsonMarshalShakenHdr { Alg := "ES256", Ppt := "shaken", Typ := "passport", X5u := x }
      = .ok (passportHeader x) := by
  rfl

theorem fSignRequest_sign_error (w : World) (ctx : RequestCtx) (r : GoMap) (e : GoError)
    (h : jsonUnmarshal ctx.postBody = .ok r)
    (hv : (w.validatePayload r (requestTraceID w ctx) ctx.remoteAddr).2.2 = none)
    (hs : (w.createSignature (passportHeader w.Signing.1)
            (valOf "" (jsonMarshalMap (w.validatePayload r (requestTraceID w ctx) ctx.remoteAddr).1))
            w.Signing.2).2.2 = some e) :
    fSignRequest w ctx =
      { ctx := errorReply w ctx 500 ⟨"VESPER-5052", "error in signing request"⟩,
        calls := signingCalls w ctx r
          (w.validatePayload r (requestTraceID w ctx) ctx.remoteAddr).1 } := by
  simp only [requestTraceID] at hv hs
  simp [fSignRequest, h, errorReply, stamped, requestTraceID, traceCalls,
    RequestCtx.SetResponseHeader, hv, hs, signingCalls, jsonMarshalShakenHdr_eq]

theorem fSignRequest_signed (w : World) (ctx : RequestCtx) (r : GoMap)
    (h : jsonUnmarshal ctx.postBody = .ok r)
    (hv : (w.validatePayload r (requestTraceID w ctx) ctx.remoteAddr).2.2 = none)
    (hs : (w.createSignature (passportHeader w.Signing.1)
            (valOf "" (jsonMarshalMap (w.validatePayload r (requestTraceID w ctx) ctx.remoteAddr).1))
            w.Signing.2).2.2 = none) :
    fSignRequest w ctx =
      { ctx := successReply w ctx
          ((w.createSignature (passportHeader w.Signing.1)
            (valOf "" (jsonMarshalMap (w.validatePayload r (requestTraceID w ctx) ctx.remoteAddr).1))
            w.Signing.2).1 ++ "." ++
           (w.createSignature (passportHeader w.Signing.1)
            (valOf "" (jsonMarshalMap (w.validatePayload r (requestTraceID w ctx) ctx.remoteAddr).1))
            w.Signing.2).2.1 ++ ";info=<" ++ w.Signing.1 ++ ">;alg=ES256"),
        calls := signingCalls w ctx r
          (w.validatePayload r (requestTraceID w ctx) ctx.remoteAddr).1 } := by
  simp only [requestTraceID] at hv hs
  simp [fSignRequest, h, successReply, stamped, requestTraceID, traceCalls,
    RequestCtx.SetResponseHeader, hv, hs, signingCalls, jsonMarshalShakenHdr_eq]

theorem encodeString_signingResponse :
    encodeString "signingResponse" = "\"signingResponse\"" := by
  decide

theorem encodeString_identity : encodeString "identity" = "\"identity\"" := by
  decide

theorem jsonMarshal_identityResponse (identity : String) :
    jsonMarshal (identityResponse identity)
      = .ok ("\x7b\"signingResponse\":\x7b\"identity\":" ++ encodeString identity ++ "\x7d\x7d") := by
  simp only [identityResponse, jsonMarshal, jsonMarshalMembers, sortKeys, insertSorted,
    List.map, encodeMember, firstError, commaJoin, encodeString_signingResponse,
    encodeString_identity]
  congr 1
  apply String.ext
  simp [String.data_append]

theorem jsonMarshalSResponse_eq (code reason : String) :
    jsonMarshalSResponse ⟨⟨code, reason⟩⟩
      = .ok ("\x7b\"signingResponse\":\x7b\"reasonCode\":" ++ encodeString code
          ++ ",\"reasonString\":" ++ encodeString reason ++ "\x7d\x7d") := by
  simp only [jsonMarshalSResponse, jsonMarshalErrorBlob]
  congr 1
  apply String.ext
  simp [String.data_append]

theorem errorReply_fields (w : World) (ctx : RequestCtx) (code : Nat) (c s : String) :
    (errorReply w ctx code ⟨c, s⟩).statusCode = code
    ∧ (errorReply w ctx code ⟨c, s⟩).body = ctx.body ++
        ["\x7b\"signingResponse\":\x7b\"reasonCode\":" ++ encodeString c
          ++ ",\"reasonString\":" ++ encodeString s ++ "\x7d\x7d" ++ "\n"]
    ∧ (errorReply w ctx code ⟨c, s⟩).responseHeader = (stamped w ctx).responseHeader := by
  simp [errorReply, jsonMarshalSResponse_eq, RequestCtx.Encode, RequestCtx.SetStatusCode,
    stamped, RequestCtx.SetResponseHeader]

theorem successReply_fields (w : World) (ctx : RequestCtx) (identity : String) :
    (successReply w ctx identity).statusCode = 200
    ∧ (successReply w ctx identity).body = ctx.body ++
        ["\x7b\"signingResponse\":\x7b\"identity\":" ++ encodeString identity ++ "\x7d\x7d" ++ "\n"]
    ∧ (successReply w ctx identity).responseHeader = (stamped w ctx).responseHeader := by
  simp [successReply, jsonMarshal_identityResponse, RequestCtx.Encode, RequestCtx.SetStatusCode,
    stamped, RequestCtx.SetResponseHeader]

theorem errorText_ne_identityText (code reason identity : String) :
    errorText code reason ≠ identityText identity := by
  intro h
  have h2 := congrArg String.data h
  simp [errorText, identityText, String.data_append] at h2

theorem Header.Peek_Set (h : Header) (key value : String) :
    (h.Set key value).Peek key = value := by
  have aux : ∀ l : Header, List.lookup key (l.filter (fun kv => !decide (kv.1 = key)) ++ [(key, value)])
      = some value := by
    intro l
    induction l with
    | nil => simp [List.lookup]
    | cons x xs ih =>
      by_cases hx : x.1 = key
      · simp [List.filter, hx, ih]
      · have hx2 : (key == x.1) = false := by
          simp only [beq_eq_false_iff_ne, ne_eq]
          exact fun hk => hx hk.symm
        simp [List.filter, hx, List.lookup, hx2, ih]
  simp [Header.Set, Header.Peek, aux]

theorem Header.Peek_Set_ne (h : Header) (key other value : String) (hne : other ≠ key) :
    (h.Set key value).Peek other = h.Peek other := by
  have aux : ∀ l : Header, List.lookup other (l.filter (fun kv => !decide (kv.1 = key)) ++ [(key, value)])
      = List.lookup other l := by
    intro l
    induction l with
    | nil =>
      have : (other == key) = false := by simpa using hne
      simp [List.lookup, this]
    | cons x xs ih =>
      by_cases hx : x.1 = key
      · have hx2 : (other == x.1) = false := by
          simp only [beq_eq_false_iff_ne, ne_eq, hx]; exact hne
        have hx3 : (other == key) = false := by simpa using hne
        simp [List.filter, hx, List.lookup, hx3, ih]
      · by_cases ho : other = x.1
        · simp [List.filter, hx, List.lookup, ho]
        · have hx2 : (other == x.1) = false := by simpa using ho
          simp [List.filter, hx, List.lookup, hx2, ih]
  simp [Header.Set, Header.Peek, aux]

theorem stamped_traceId (w : World) (ctx : RequestCtx) :
    (stamped w ctx).responseHeader.Peek "Trace-Id" = requestTraceID w ctx := by
  simp [stamped, RequestCtx.SetResponseHeader, Header.Peek_Set]

theorem stamped_contentType (w : World) (ctx : RequestCtx) :
    (stamped w ctx).responseHeader.Peek "Content-Type" = "application/json" := by
  simp only [stamped, RequestCtx.SetResponseHeader]
  rw [Header.Peek_Set_ne _ _ _ _ (by decide), Header.Peek_Set]

set_option maxRecDepth 100000 in
/-- C1 (code defect): on the happy-path request the handler answers 200 with
an identity that ends after `alg=ES256`; among its parameters one matches
`^info=<..*>$`, one `^alg=ES256$` and none `^ppt=shaken$`. -/
theorem fSignRequest_identity_lacks_ppt :
    (fSignRequest sampleWorld sampleRequest).ctx.statusCode = 200
    ∧ (fSignRequest sampleWorld sampleRequest).ctx.body
        = [identityText "aGRy.Y2xhaW1z.c2ln;info=<https://cr.example.com/cert.pem>;alg=ES256"]
    ∧ (identityTokens
          "aGRy.Y2xhaW1z.c2ln;info=<https://cr.example.com/cert.pem>;alg=ES256").tail
        = ["info=<https://cr.example.com/cert.pem>", "alg=ES256"]
    ∧ ((identityTokens
          "aGRy.Y2xhaW1z.c2ln;info=<https://cr.example.com/cert.pem>;alg=ES256").tail.map
        (fun t => (regexInfo t, regexAlg t, regexPpt t)))
        = [(true, false, false), (false, true, false)] := by
  refine ⟨?_, ?_, ?_, ?_⟩
  · rfl
  · rfl
  · decide
  · decide

/-- C2 (code defect): for the empty body `json.Unmarshal` returns a syntax error,
not `io.EOF`, so the handler answers 400 with `VESPER-4002`, "Unable to parse
request body", where `VESPER-4001`, "empty request body" is expected; neither
`validatePayload` nor `createSignature` is called. -/
theorem fSignRequest_empty_body (w : World) (requestHeader : Header) (remoteAddr : String) :
    errOf (jsonUnmarshal "") = some (.jsonSyntaxError "unexpected end of JSON input")
    ∧ (fSignRequest w (.incoming requestHeader "" remoteAddr)).ctx.statusCode = 400
    ∧ (fSignRequest w (.incoming requestHeader "" remoteAddr)).ctx.body
        = ["\x7b\"signingResponse\":\x7b\"reasonCode\":\"VESPER-4002\",\"reasonString\":\"Unable to parse request body\"\x7d\x7d\n"]
    ∧ (fSignRequest w (.incoming requestHeader "" remoteAddr)).ctx.body
        ≠ ["\x7b\"signingResponse\":\x7b\"reasonCode\":\"VESPER-4001\",\"reasonString\":\"empty request body\"\x7d\x7d\n"]
    ∧ (fSignRequest w (.incoming requestHeader "" remoteAddr)).calls.any
        (fun c => c.isValidatePayload || c.isCreateSignature) = false := by
  have h : jsonUnmarshal (RequestCtx.incoming requestHeader "" remoteAddr).postBody
      = .error (.jsonSyntaxError "unexpected end of JSON input") := rfl
  rw [fSignRequest_decode_error w _ _ h]
  have hb := (errorReply_fields w (.incoming requestHeader "" remoteAddr) 400
    "VESPER-4002" "Unable to parse request body")
  refine ⟨rfl, hb.1, ?_, ?_, ?_⟩
  · rw [hb.2.1]; simp only [RequestCtx.incoming, List.nil_append]; decide
  · rw [hb.2.1]; simp only [RequestCtx.incoming, List.nil_append]; decide
  · unfold traceCalls; split <;> rfl

/-- C3: for every body that `json.Unmarshal` rejects (malformed JSON, or a JSON
value that is neither an object nor `null`), the non-empty ones included, the
handler answers 400 with `VESPER-4002`, "Unable to parse request body", writing
that one object to the body, and calls neither `validatePayload` nor
`createSignature`. -/
theorem fSignRequest_unparsable_body (w : World) (ctx : RequestCtx) (e : GoError)
    (h : jsonUnmarshal ctx.postBody = .error e) :
    (fSignRequest w ctx).ctx.statusCode = 400
    ∧ (fSignRequest w ctx).ctx.body = ctx.body ++
        ["\x7b\"signingResponse\":\x7b\"reasonCode\":\"VESPER-4002\",\"reasonString\":\"Unable to parse request body\"\x7d\x7d\n"]
    ∧ (fSignRequest w ctx).calls.any
        (fun c => c.isValidatePayload || c.isCreateSignature) = false := by
  rw [fSignRequest_decode_error w _ _ h]
  have hb := errorReply_fields w ctx 400 "VESPER-4002" "Unable to parse request body"
  refine ⟨hb.1, ?_, ?_⟩
  · rw [hb.2.1]; rfl
  · unfold traceCalls; split <;> rfl

/-- C3, at the body `[1]` (valid JSON, not an object). -/
theorem fSignRequest_unparsable_body_witness :
    (RequestCtx.incoming [] "[1]" "192.0.2.1:40000").postBody ≠ ""
    ∧ jsonUnmarshal (RequestCtx.incoming [] "[1]" "192.0.2.1:40000").postBody
        = .error (.jsonUnmarshalTypeError
            "json: cannot unmarshal into Go value of type map[string]interface \x7b\x7d")
    ∧ (fSignRequest sampleWorld (.incoming [] "[1]" "192.0.2.1:40000")).ctx.statusCode = 400
    ∧ (fSignRequest sampleWorld (.incoming [] "[1]" "192.0.2.1:40000")).ctx.body
        = (RequestCtx.incoming [] "[1]" "192.0.2.1:40000").body ++
        ["\x7b\"signingResponse\":\x7b\"reasonCode\":\"VESPER-4002\",\"reasonString\":\"Unable to parse request body\"\x7d\x7d\n"]
    ∧ (fSignRequest sampleWorld (.incoming [] "[1]" "192.0.2.1:40000")).calls.any
        (fun c => c.isValidatePayload || c.isCreateSignature) = false :=
  ⟨by decide, rfl,
    fSignRequest_unparsable_body sampleWorld (.incoming [] "[1]" "192.0.2.1:40000") _ rfl⟩

/-- C4: when the body decodes and `validatePayload` returns an error `e` with
code `c`, the handler answers 400 with the one object holding `reasonCode` `c`
and `reasonString` `e.Error()` (so no identity), and its calls end with
`validatePayload`: the credentials are not read and nothing is signed. -/
theorem fSignRequest_validation_error (w : World) (ctx : RequestCtx) (r : GoMap) (e : GoError)
    (h : jsonUnmarshal ctx.postBody = .ok r)
    (hv : (w.validatePayload r (requestTraceID w ctx) ctx.remoteAddr).2.2 = some e) :
    (fSignRequest w ctx).ctx.statusCode = 400
    ∧ (fSignRequest w ctx).ctx.body = ctx.body ++
        [errorText (w.validatePayload r (requestTraceID w ctx) ctx.remoteAddr).2.1 e.Error]
    ∧ (∀ identity, (fSignRequest w ctx).ctx.body ≠ ctx.body ++ [identityText identity])
    ∧ (fSignRequest w ctx).calls.any (fun c => c.isSigning || c.isCreateSignature) = false := by
  rw [fSignRequest_invalid w _ _ _ h hv]
  have hb := errorReply_fields w ctx 400
    (w.validatePayload r (requestTraceID w ctx) ctx.remoteAddr).2.1 e.Error
  refine ⟨hb.1, ?_, ?_, ?_⟩
  · rw [hb.2.1]; rfl
  · intro identity hid
    rw [hb.2.1] at hid
    have := List.append_cancel_left hid
    simp only [List.cons.injEq, and_true] at this
    exact errorText_ne_identityText _ _ _ this
  · unfold traceCalls; split <;> rfl

/-- C4, at the body `{}` (no `signingRequest`). -/
theorem fSignRequest_validation_error_witness :
    jsonUnmarshal (RequestCtx.incoming [] "\x7b\x7d" "192.0.2.1:40000").postBody = .ok (some [])
    ∧ (sampleWorld.validatePayload (some [])
        (requestTraceID sampleWorld (.incoming [] "\x7b\x7d" "192.0.2.1:40000"))
        "192.0.2.1:40000").2.2 = some (.errorString "request payload is invalid")
    ∧ (fSignRequest sampleWorld (.incoming [] "\x7b\x7d" "192.0.2.1:40000")).ctx.statusCode = 400
    ∧ (fSignRequest sampleWorld (.incoming [] "\x7b\x7d" "192.0.2.1:40000")).ctx.body
        = [] ++ [errorText "VESPER-4003" "request payload is invalid"] :=
  ⟨rfl, rfl,
    (fSignRequest_validation_error sampleWorld (.incoming [] "\x7b\x7d" "192.0.2.1:40000")
      (some []) (.errorString "request payload is invalid") rfl rfl).1,
    (fSignRequest_validation_error sampleWorld (.incoming [] "\x7b\x7d" "192.0.2.1:40000")
      (some []) (.errorString "request payload is invalid") rfl rfl).2.1⟩

/-- C5: every run of the handler writes exactly one chunk to the body; the
status is 200, 400 or 500; `Content-Type` is `application/json`; the chunk is
the object `signingResponse` holding an identity exactly when the status is
200, and holding `reasonCode` and `reasonString` exactly when it is not. -/
theorem fSignRequest_one_response (w : World) (ctx : RequestCtx) :
    ((fSignRequest w ctx).ctx.statusCode = 200 ∨ (fSignRequest w ctx).ctx.statusCode = 400
      ∨ (fSignRequest w ctx).ctx.statusCode = 500)
    ∧ (fSignRequest w ctx).ctx.responseHeader.Peek "Content-Type" = "application/json"
    ∧ (fSignRequest w ctx).ctx.body.length = ctx.body.length + 1
    ∧ ((fSignRequest w ctx).ctx.statusCode = 200
        ↔ ∃ identity, (fSignRequest w ctx).ctx.body = ctx.body ++ [identityText identity])
    ∧ ((fSignRequest w ctx).ctx.statusCode ≠ 200
        ↔ ∃ code reason, (fSignRequest w ctx).ctx.body = ctx.body ++ [errorText code reason]) := by
  have herr : ∀ (n : Nat) (c s : String), (n = 400 ∨ n = 500) →
      fSignRequest w ctx = { ctx := errorReply w ctx n ⟨c, s⟩, calls := (fSignRequest w ctx).calls } →
      ((fSignRequest w ctx).ctx.statusCode = 200 ∨ (fSignRequest w ctx).ctx.statusCode = 400
        ∨ (fSignRequest w ctx).ctx.statusCode = 500)
      ∧ (fSignRequest w ctx).ctx.responseHeader.Peek "Content-Type" = "application/json"
      ∧ (fSignRequest w ctx).ctx.body.length = ctx.body.length + 1
      ∧ ((fSignRequest w ctx).ctx.statusCode = 200
          ↔ ∃ identity, (fSignRequest w ctx).ctx.body = ctx.body ++ [identityText identity])
      ∧ ((fSignRequest w ctx).ctx.statusCode ≠ 200
          ↔ ∃ code reason, (fSignRequest w ctx).ctx.body = ctx.body ++ [errorText code reason]) := by
    intro n c s hn heq
    have hb := errorReply_fields w ctx n c s
    have hctx : (fSignRequest w ctx).ctx = errorReply w ctx n ⟨c, s⟩ := by rw [heq]
    have hbody : (fSignRequest w ctx).ctx.body = ctx.body ++ [errorText c s] := by
      rw [hctx, hb.2.1]; rfl
    have hst : (fSignRequest w ctx).ctx.statusCode = n := by rw [hctx, hb.1]
    have hn200 : n ≠ 200 := by rcases hn with h | h <;> omega
    refine ⟨?_, ?_, ?_, ?_, ?_⟩
    · rw [hst]; rcases hn with h | h
      · exact Or.inr (Or.inl h)
      · exact Or.inr (Or.inr h)
    · rw [hctx, hb.2.2, stamped_contentType]
    · rw [hbody]; simp
    · rw [hst]
      constructor
      · intro h; exact absurd h hn200
      · rintro ⟨identity, hid⟩
        rw [hbody] at hid
        have := List.append_cancel_left hid
        simp only [List.cons.injEq, and_true] at this
        exact absurd this (errorText_ne_identityText _ _ _)
    · rw [hst]
      constructor
      · intro _; exact ⟨c, s, hbody⟩
      · intro _; exact hn200
  rcases hj : jsonUnmarshal ctx.postBody with e | r
  · exact herr 400 _ _ (Or.inl rfl) (by rw [fSignRequest_decode_error w ctx e hj])
  · rcases hv : (w.validatePayload r (requestTraceID w ctx) ctx.remoteAddr).2.2 with _ | e
    · rcases hs : (w.createSignature (passportHeader w.Signing.1)
          (valOf "" (jsonMarshalMap (w.validatePayload r (requestTraceID w ctx) ctx.remoteAddr).1))
          w.Signing.2).2.2 with _ | e
      · have heq := fSignRequest_signed w ctx r hj hv hs
        have hb := successReply_fields w ctx
          ((w.createSignature (passportHeader w.Signing.1)
            (valOf "" (jsonMarshalMap (w.validatePayload r (requestTraceID w ctx) ctx.remoteAddr).1))
            w.Signing.2).1 ++ "." ++
           (w.createSignature (passportHeader w.Signing.1)
            (valOf "" (jsonMarshalMap (w.validatePayload r (requestTraceID w ctx) ctx.remoteAddr).1))
            w.Signing.2).2.1 ++ ";info=<" ++ w.Signing.1 ++ ">;alg=ES256")
        rw [heq]
        refine ⟨Or.inl hb.1, ?_, ?_, ?_, ?_⟩
        · simp only; rw [hb.2.2, stamped_contentType]
        · simp only; rw [hb.2.1]; simp
        · simp only
          constructor
          · intro _; exact ⟨_, hb.2.1⟩
          · intro _; exact hb.1
        · simp only
          constructor
          · intro h; exact absurd hb.1 h
          · rintro ⟨code, reason, hid⟩
            rw [hb.2.1] at hid
            have := List.append_cancel_left hid
            simp only [List.cons.injEq, and_true] at this
            exact absurd this.symm (errorText_ne_identityText _ _ _)
      · exact herr 500 _ _ (Or.inr rfl) (by rw [fSignRequest_sign_error w ctx r e hj hv hs])
    · exact herr 400 _ _ (Or.inl rfl) (by rw [fSignRequest_invalid w ctx r e hj hv])

theorem fSignRequest_header_calls (w : World) (ctx : RequestCtx) :
    (fSignRequest w ctx).ctx.responseHeader = (stamped w ctx).responseHeader
    ∧ ∃ rest : List Call, (fSignRequest w ctx).calls = traceCalls ctx ++ rest
        ∧ rest.all (fun c => !c.isUuidNewV1) = true := by
  rcases hj : jsonUnmarshal ctx.postBody with e | r
  · rw [fSignRequest_decode_error w ctx e hj]
    exact ⟨(errorReply_fields w ctx _ _ _).2.2, [], by simp, rfl⟩
  · rcases hv : (w.validatePayload r (requestTraceID w ctx) ctx.remoteAddr).2.2 with _ | e
    · rcases hs : (w.createSignature (passportHeader w.Signing.1)
          (valOf "" (jsonMarshalMap (w.validatePayload r (requestTraceID w ctx) ctx.remoteAddr).1))
          w.Signing.2).2.2 with _ | e
      · rw [fSignRequest_signed w ctx r hj hv hs]
        exact ⟨(successReply_fields w ctx _).2.2, _, rfl, rfl⟩
      · rw [fSignRequest_sign_error w ctx r e hj hv hs]
        exact ⟨(errorReply_fields w ctx _ _ _).2.2, _, rfl, rfl⟩
    · rw [fSignRequest_invalid w ctx r e hj hv]
      exact ⟨(errorReply_fields w ctx _ _ _).2.2, _, rfl, rfl⟩

/-- C6: on every run of the handler the response header `Trace-Id` is the
request's `Trace-Id` when that is not empty, and otherwise `VESPER-` followed by
the string of a UUID from `uuid.NewV1()`, which is called once in that case and
not at all in the other. -/
theorem fSignRequest_traceId (w : World) (ctx : RequestCtx) :
    (fSignRequest w ctx).ctx.responseHeader.Peek "Trace-Id"
      = (if ctx.requestHeader.Peek "Trace-Id" ≠ "" then ctx.requestHeader.Peek "Trace-Id"
         else "VESPER-" ++ w.uuidNewV1)
    ∧ (fSignRequest w ctx).calls.filter Call.isUuidNewV1
      = (if ctx.requestHeader.Peek "Trace-Id" ≠ "" then [] else [Call.uuidNewV1]) := by
  obtain ⟨hh, rest, hc, hr⟩ := fSignRequest_header_calls w ctx
  have hf : rest.filter Call.isUuidNewV1 = [] := by
    rw [List.filter_eq_nil_iff]
    intro c hc
    have := List.all_eq_true.mp hr c hc
    simpa using this
  rw [hh, stamped_traceId, hc]
  unfold requestTraceID traceCalls
  by_cases hp : ctx.requestHeader.Peek "Trace-Id" = ""
  · simp [hp, hf, Call.isUuidNewV1]
  · simp [hp, hf]

/-- C7: when the body decodes and validation passes, the handler reads the
credentials once, as the pair `(x, p)`; its one call of `createSignature` gets
the encoding of `alg` "ES256", `ppt` "shaken", `typ` "passport", `x5u` `x` as
header and `p` as key; and when signing succeeds the response is 200 with an
identity made of the canonical string, a dot, the signature and `;info=<x>`
followed by further parameters. -/
theorem fSignRequest_one_snapshot (w : World) (ctx : RequestCtx) (r : GoMap)
    (h : jsonUnmarshal ctx.postBody = .ok r)
    (hv : (w.validatePayload r (requestTraceID w ctx) ctx.remoteAddr).2.2 = none) :
    (fSignRequest w ctx).calls.filter Call.isSigning = [Call.Signing]
    ∧ jsonMarshalShakenHdr
        { Alg := "ES256", Ppt := "shaken", Typ := "passport", X5u := w.Signing.1 }
        = .ok (passportHeader w.Signing.1)
    ∧ (fSignRequest w ctx).calls.filter Call.isCreateSignature
        = [Call.createSignature (passportHeader w.Signing.1)
            (valOf "" (jsonMarshalMap
              (w.validatePayload r (requestTraceID w ctx) ctx.remoteAddr).1)) w.Signing.2]
    ∧ ((w.createSignature (passportHeader w.Signing.1)
          (valOf "" (jsonMarshalMap (w.validatePayload r (requestTraceID w ctx) ctx.remoteAddr).1))
          w.Signing.2).2.2 = none →
        (fSignRequest w ctx).ctx.statusCode = 200
        ∧ ∃ rest, (fSignRequest w ctx).ctx.body = ctx.body ++
            [identityText
              ((w.createSignature (passportHeader w.Signing.1)
                (valOf "" (jsonMarshalMap
                  (w.validatePayload r (requestTraceID w ctx) ctx.remoteAddr).1))
                w.Signing.2).1 ++ "." ++
               (w.createSignature (passportHeader w.Signing.1)
                (valOf "" (jsonMarshalMap
                  (w.validatePayload r (requestTraceID w ctx) ctx.remoteAddr).1))
                w.Signing.2).2.1 ++ ";info=<" ++ w.Signing.1 ++ ">" ++ rest)]) := by
  have hcalls : (fSignRequest w ctx).calls = signingCalls w ctx r
      (w.validatePayload r (requestTraceID w ctx) ctx.remoteAddr).1 := by
    rcases hs : (w.createSignature (passportHeader w.Signing.1)
        (valOf "" (jsonMarshalMap (w.validatePayload r (requestTraceID w ctx) ctx.remoteAddr).1))
        w.Signing.2).2.2 with _ | e
    · rw [fSignRequest_signed w ctx r h hv hs]
    · rw [fSignRequest_sign_error w ctx r e h hv hs]
  refine ⟨?_, jsonMarshalShakenHdr_eq _, ?_, ?_⟩
  · rw [hcalls]; unfold signingCalls traceCalls
    split <;> simp [Call.isSigning]
  · rw [hcalls]; unfold signingCalls traceCalls
    split <;> simp [Call.isCreateSignature]
  · intro hs
    rw [fSignRequest_signed w ctx r h hv hs]
    refine ⟨(successReply_fields w ctx _).1, ";alg=ES256", ?_⟩
    simp only
    rw [(successReply_fields w ctx _).2.1]
    simp [identityText, String.append_assoc]

set_option maxRecDepth 100000 in
/-- C7, at the happy-path request. -/
theorem fSignRequest_one_snapshot_witness :
    (fSignRequest sampleWorld sampleRequest).calls.filter Call.isCreateSignature
      = [Call.createSignature
          "\x7b\"alg\":\"ES256\",\"ppt\":\"shaken\",\"typ\":\"passport\",\"x5u\":\"https://cr.example.com/cert.pem\"\x7d"
          "\x7b\"attest\":\"A\",\"dest\":\x7b\"tn\":[\"12155551213\"]\x7d,\"iat\":1577836800,\"orig\":\x7b\"tn\":\"12155551212\"\x7d,\"origid\":\"123e4567-e89b-12d3-a456-426614174000\"\x7d"
          "PRIVATE-KEY"] :=
  (fSignRequest_one_snapshot sampleWorld sampleRequest
    (some [("signingRequest", .map [("attest", .str "A"), ("orig", .map [("tn", .str "12155551212")]),
      ("dest", .map [("tn", .arr [.str "12155551213"])]), ("iat", .float (.finite "1577836800")),
      ("origid", .str "123e4567-e89b-12d3-a456-426614174000")])]) rfl rfl).2.2.1

/-- C8: after `FetchRootCertsFromSks`, `Root()` is the fetched pool when the
fetch returned no error and the pool held before otherwise, and the method
returns the error of the fetch. -/
theorem FetchRootCertsFromSks_keeps_or_swaps (rc : RootCerts) (w : SksWorld) :
    (rc.FetchRootCertsFromSks w).1.Root
      = (if (getRootCertsFromSks w).2 = none then (getRootCertsFromSks w).1 else rc.Root)
    ∧ (rc.FetchRootCertsFromSks w).2 = (getRootCertsFromSks w).2 := by
  unfold RootCerts.FetchRootCertsFromSks RootCerts.Root
  by_cases h : (getRootCertsFromSks w).2 = none <;> simp [h]

theorem String_length_pos_iff (s : String) : s.length > 0 ↔ s ≠ "" := by
  cases s with
  | mk l =>
    cases l with
    | nil => simp [String.length]
    | cons c cs =>
      simp only [String.length, List.length_cons, gt_iff_lt, Nat.zero_lt_succ, ne_eq, true_iff]
      intro h
      have := congrArg String.data h
      simp at this

theorem getRootCertsFromSks_cases (w : SksWorld) (resp : HttpResponse) (rb : String)
    (hreq : w.NewRequest (w.GetSksCredentials.1 ++ "/whitelist") = none)
    (hdo : w.Do (w.GetSksCredentials.1 ++ "/whitelist") w.GetSksCredentials.2 = .ok resp)
    (hread : resp.readAll = .ok rb) :
    (rootsAccepted w resp rb ∧ ∃ pem, getRootCertsFromSks w = (some (w.certsFromPEM pem), none)
        ∧ w.certsFromPEM pem ≠ [])
    ∨ (¬ rootsAccepted w resp rb ∧ ∃ e, getRootCertsFromSks w = (none, some e)) := by
  unfold getRootCertsFromSks
  simp only [hreq, hdo, hread, AppendCertsFromPEM, List.nil_append]
  by_cases hlen : rb.length > 0
  · have hne : rb ≠ "" := (String_length_pos_iff rb).mp hlen
    simp only [hlen, if_true]
    by_cases hct : stringsContains resp.contentType "application/json" = true
    · simp only [hct, if_true]
      rcases hj : jsonUnmarshal rb with e | s
      · right
        refine ⟨?_, _, rfl⟩
        rintro ⟨_, _, _, s1, d1, p1, hj1, _⟩
        rw [hj] at hj1; cases hj1
      · simp only
        by_cases hst : resp.StatusCode = 200
        · simp only [hst, if_true]
          cases s with
          | none =>
            right
            refine ⟨?_, _, rfl⟩
            rintro ⟨_, _, _, s1, d1, p1, hj1, _⟩
            rw [hj] at hj1; cases hj1
          | some kvs =>
            simp only [GoMap.index]
            rcases hd : kvs.lookup "data" with _ | d
            · right
              refine ⟨?_, _, rfl⟩
              rintro ⟨_, _, _, s1, d1, p1, hj1, hd1, _⟩
              rw [hj] at hj1; cases hj1
              rw [hd] at hd1; cases hd1
            · have hnot : (∀ data, d ≠ .map data) → ¬ rootsAccepted w resp rb := by
                rintro hno ⟨_, _, _, s1, d1, p1, hj1, hd1, _⟩
                rw [hj] at hj1; cases hj1
                rw [hd] at hd1; cases hd1
                exact hno d1 rfl
              cases d with
              | map data =>
                simp only
                rcases hr : data.lookup "rootcerts" with _ | c
                · right
                  refine ⟨?_, _, rfl⟩
                  rintro ⟨_, _, _, s1, d1, p1, hj1, hd1, hr1, _⟩
                  rw [hj] at hj1; cases hj1
                  rw [hd] at hd1; cases hd1
                  rw [hr] at hr1; cases hr1
                · have hnot2 : (∀ pem, c ≠ .str pem) → ¬ rootsAccepted w resp rb := by
                    rintro hno ⟨_, _, _, s1, d1, p1, hj1, hd1, hr1, _⟩
                    rw [hj] at hj1; cases hj1
                    rw [hd] at hd1; cases hd1
                    rw [hr] at hr1; cases hr1
                    exact hno p1 rfl
                  cases c with
                  | str pem =>
                    simp only
                    by_cases hp : w.certsFromPEM pem = []
                    · right
                      refine ⟨?_, ?_⟩
                      · rintro ⟨_, _, _, s1, d1, p1, hj1, hd1, hr1, hp1⟩
                        rw [hj] at hj1; cases hj1
                        rw [hd] at hd1; cases hd1
                        rw [hr] at hr1; cases hr1
                        exact hp1 hp
                      · simp [hp]
                    · left
                      refine ⟨⟨hst, hne, hct, kvs, data, pem, hj, hd, hr, hp⟩, pem, ?_, hp⟩
                      simp [hp]
                  | null => exact Or.inr ⟨hnot2 (by intro p hp; cases hp), _, rfl⟩
                  | bool b => exact Or.inr ⟨hnot2 (by intro p hp; cases hp), _, rfl⟩
                  | int n => exact Or.inr ⟨hnot2 (by intro p hp; cases hp), _, rfl⟩
                  | float f => exact Or.inr ⟨hnot2 (by intro p hp; cases hp), _, rfl⟩
                  | arr xs => exact Or.inr ⟨hnot2 (by intro p hp; cases hp), _, rfl⟩
                  | map m => exact Or.inr ⟨hnot2 (by intro p hp; cases hp), _, rfl⟩
              | null => exact Or.inr ⟨hnot (by intro p hp; cases hp), _, rfl⟩
              | bool b => exact Or.inr ⟨hnot (by intro p hp; cases hp), _, rfl⟩
              | int n => exact Or.inr ⟨hnot (by intro p hp; cases hp), _, rfl⟩
              | float f => exact Or.inr ⟨hnot (by intro p hp; cases hp), _, rfl⟩
              | str x => exact Or.inr ⟨hnot (by intro p hp; cases hp), _, rfl⟩
              | arr xs => exact Or.inr ⟨hnot (by intro p hp; cases hp), _, rfl⟩
        · right
          refine ⟨fun hacc => hst hacc.1, ?_⟩
          simp [hst]
    · right
      refine ⟨fun hacc => hct hacc.2.2.1, ?_⟩
      simp only [hct, Bool.false_eq_true, if_false, GoMap.index]
      by_cases hst : resp.StatusCode = 200
      · simp [hst]
      · simp [hst]
  · right
    refine ⟨fun hacc => hlen ((String_length_pos_iff rb).mpr hacc.2.1), ?_⟩
    simp [hlen]

/-- C9: for every response of the key service that was read in full,
`getRootCertsFromSks` returns a pool and a nil error exactly when the response
is accepted (status 200, non-empty body, `Content-Type` containing
`application/json`, body an object whose `data` is an object whose `rootcerts`
is a string, at least one certificate appended), and a nil pool and a non-nil
error exactly when it is not. -/
theorem getRootCertsFromSks_accepts_iff (w : SksWorld) (resp : HttpResponse) (rb : String)
    (hreq : w.NewRequest (w.GetSksCredentials.1 ++ "/whitelist") = none)
    (hdo : w.Do (w.GetSksCredentials.1 ++ "/whitelist") w.GetSksCredentials.2 = .ok resp)
    (hread : resp.readAll = .ok rb) :
    ((∃ pool, getRootCertsFromSks w = (some pool, none)) ↔ rootsAccepted w resp rb)
    ∧ ((∃ e, getRootCertsFromSks w = (none, some e)) ↔ ¬ rootsAccepted w resp rb) := by
  rcases getRootCertsFromSks_cases w resp rb hreq hdo hread with
    ⟨hacc, pem, heq, _⟩ | ⟨hnacc, e, heq⟩
  · refine ⟨⟨fun _ => hacc, fun _ => ⟨_, heq⟩⟩, ⟨?_, fun hn => absurd hacc hn⟩⟩
    rintro ⟨e, he⟩
    rw [heq] at he
    cases he
  · refine ⟨⟨?_, fun ha => absurd ha hnacc⟩, ⟨fun _ => hnacc, fun _ => ⟨_, heq⟩⟩⟩
    rintro ⟨pool, hp⟩
    rw [heq] at hp
    cases hp

/-- C9, at a well-formed response holding one certificate. -/
theorem getRootCertsFromSks_accepts_iff_witness :
    getRootCertsFromSks (sampleSks 200 "application/json; charset=utf-8"
        "\x7b\"data\":\x7b\"rootcerts\":\"-----BEGIN CERTIFICATE-----\"\x7d\x7d")
      = (some ["root-1"], none)
    ∧ rootsAccepted (sampleSks 200 "application/json; charset=utf-8"
        "\x7b\"data\":\x7b\"rootcerts\":\"-----BEGIN CERTIFICATE-----\"\x7d\x7d")
        { StatusCode := 200, Status := "", contentType := "application/json; charset=utf-8",
          readAll := .ok "\x7b\"data\":\x7b\"rootcerts\":\"-----BEGIN CERTIFICATE-----\"\x7d\x7d" }
        "\x7b\"data\":\x7b\"rootcerts\":\"-----BEGIN CERTIFICATE-----\"\x7d\x7d" :=
  ⟨rfl, (getRootCertsFromSks_accepts_iff _ _ _ rfl rfl rfl).1.mp ⟨_, rfl⟩⟩

set_option maxRecDepth 100000 in
/-- C10 (code defect): when `json.Marshal` of the claim map fails, the handler
does not answer 500 with `VESPER-5051`: it tests the stale `err` of the header
encoding, calls `createSignature` with empty claims and answers 200. -/
theorem fSignRequest_claims_marshal_error_ignored :
    jsonMarshalMap (nanWorld.validatePayload (some []) "" "").1
      = .error (.jsonUnsupportedValueError "json: unsupported value: NaN")
    ∧ (fSignRequest nanWorld sampleRequest).ctx.statusCode = 200
    ∧ (fSignRequest nanWorld sampleRequest).ctx.body
        = [identityText "aGRy.Y2xhaW1z.c2ln;info=<https://cr.example.com/cert.pem>;alg=ES256"]
    ∧ (fSignRequest nanWorld sampleRequest).ctx.body
        ≠ ["\x7b\"signingResponse\":\x7b\"reasonCode\":\"VESPER-5051\",\"reasonString\":\"error in converting claims to byte array\"\x7d\x7d\n"]
    ∧ (fSignRequest nanWorld sampleRequest).calls.filter Call.isCreateSignature
        = [Call.createSignature (passportHeader "https://cr.example.com/cert.pem") ""
            "PRIVATE-KEY"] := by
  refine ⟨rfl, rfl, rfl, ?_, rfl⟩
  have h : (fSignRequest nanWorld sampleRequest).ctx.body
      = [identityText "aGRy.Y2xhaW1z.c2ln;info=<https://cr.example.com/cert.pem>;alg=ES256"] := rfl
  rw [h]
  decide

/-- C11: when the body decodes, validation passes and `createSignature` returns
an error, the handler answers 500 with `VESPER-5052`, "error in signing
request", writing that one object to the body, which holds no identity. -/
theorem fSignRequest_signing_error (w : World) (ctx : RequestCtx) (r : GoMap) (e : GoError)
    (h : jsonUnmarshal ctx.postBody = .ok r)
    (hv : (w.validatePayload r (requestTraceID w ctx) ctx.remoteAddr).2.2 = none)
    (hs : (w.createSignature (passportHeader w.Signing.1)
            (valOf "" (jsonMarshalMap (w.validatePayload r (requestTraceID w ctx) ctx.remoteAddr).1))
            w.Signing.2).2.2 = some e) :
    (fSignRequest w ctx).ctx.statusCode = 500
    ∧ (fSignRequest w ctx).ctx.body = ctx.body ++
        ["\x7b\"signingResponse\":\x7b\"reasonCode\":\"VESPER-5052\",\"reasonString\":\"error in signing request\"\x7d\x7d\n"]
    ∧ ∀ identity, (fSignRequest w ctx).ctx.body ≠ ctx.body ++ [identityText identity] := by
  rw [fSignRequest_sign_error w ctx r e h hv hs]
  have hb := errorReply_fields w ctx 500 "VESPER-5052" "error in signing request"
  refine ⟨hb.1, ?_, ?_⟩
  · rw [hb.2.1]; rfl
  · intro identity hid
    rw [hb.2.1] at hid
    have := List.append_cancel_left hid
    simp only [List.cons.injEq, and_true] at this
    exact errorText_ne_identityText _ _ _ this

set_option maxRecDepth 100000 in
/-- C11, at the happy-path request with a signer that fails. -/
theorem fSignRequest_signing_error_witness :
    (fSignRequest revokedKeyWorld sampleRequest).ctx.statusCode = 500
    ∧ (fSignRequest revokedKeyWorld sampleRequest).ctx.body = sampleRequest.body ++
        ["\x7b\"signingResponse\":\x7b\"reasonCode\":\"VESPER-5052\",\"reasonString\":\"error in signing request\"\x7d\x7d\n"] :=
  ⟨(fSignRequest_signing_error revokedKeyWorld sampleRequest
      (some [("signingRequest", .map [("attest", .str "A"),
        ("orig", .map [("tn", .str "12155551212")]),
        ("dest", .map [("tn", .arr [.str "12155551213"])]),
        ("iat", .float (.finite "1577836800")),
        ("origid", .str "123e4567-e89b-12d3-a456-426614174000")])])
      (.errorString "unable to sign") rfl rfl rfl).1,
   (fSignRequest_signing_error revokedKeyWorld sampleRequest
      (some [("signingRequest", .map [("attest", .str "A"),
        ("orig", .map [("tn", .str "12155551212")]),
        ("dest", .map [("tn", .arr [.str "12155551213"])]),
        ("iat", .float (.finite "1577836800")),
        ("origid", .str "123e4567-e89b-12d3-a456-426614174000")])])
      (.errorString "unable to sign") rfl rfl rfl).2.1⟩

theorem sweepStep_returned (s : SweepState) (ev : SweepEvent) (h : s.returned = true) :
    sweepStep s ev = s := by
  cases s with
  | mk t calls returned =>
    simp only at h
    subst h
    cases ev <;> simp [sweepStep]

theorem foldl_sweepStep_returned (events : List SweepEvent) (s : SweepState)
    (h : s.returned = true) : events.foldl sweepStep s = s := by
  induction events with
  | nil => rfl
  | cons ev rest ih => rw [List.foldl_cons, sweepStep_returned s ev h, ih]

theorem foldl_sweepStep_running (events : List SweepEvent) :
    ∀ s : SweepState, s.returned = false →
      (events.foldl sweepStep s).removeCalls = s.removeCalls ++
          (List.range (events.takeWhile SweepEvent.isTick).length).map (fun i : Nat => s.t + (i : Int))
      ∧ (events.foldl sweepStep s).t = s.t + ((events.takeWhile SweepEvent.isTick).length : Int) := by
  induction events with
  | nil => intro s _; simp
  | cons ev rest ih =>
    intro s hs
    cases ev with
    | stop =>
      have hr : (sweepStep s SweepEvent.stop).returned = true := rfl
      rw [List.foldl_cons, foldl_sweepStep_returned rest _ hr]
      simp [sweepStep, SweepEvent.isTick]
    | tick at_ =>
      have hstep : sweepStep s (SweepEvent.tick at_)
          = { s with removeCalls := s.removeCalls ++ [s.t], t := s.t + 1 } := by
        simp [sweepStep, hs]
      obtain ⟨h1, h2⟩ := ih { s with removeCalls := s.removeCalls ++ [s.t], t := s.t + 1 } hs
      rw [List.foldl_cons, hstep]
      constructor
      · rw [h1]
        simp only [List.takeWhile_cons, SweepEvent.isTick, if_true, List.length_cons,
          List.range_succ_eq_map, List.map_cons, List.map_map, List.append_assoc,
          List.singleton_append, Nat.cast_zero, add_zero]
        congr 2
        apply List.map_congr_left
        intro i _
        simp only [Function.comp, Nat.cast_succ]
        ring
      · rw [h2]
        simp only [List.takeWhile_cons, SweepEvent.isTick, if_true, List.length_cons,
          Nat.cast_succ]
        ring

theorem chain_succ_range (t0 : Int) (k : Nat) :
    List.Chain' (fun a b : Int => b = a + 1) ((List.range k).map (fun i : Nat => t0 + (i : Int))) := by
  rw [List.chain'_iff_get]
  intro i hi
  simp only [List.get_eq_getElem, List.getElem_map, List.getElem_range, Nat.cast_add,
    Nat.cast_one]
  ring

/-- C12: whatever events the sweep loop receives, with `k` the number of ticks
before the first stop, the thresholds passed to `Remove` are
`t0, t0 + 1, ..., t0 + k - 1` in this order (the `n`-th tick passes
`t0 + n - 1`) and `t` ends at `t0 + k`; each threshold is the one before plus
one.  The times the ticks carry play no part. -/
theorem sweepLoop_thresholds (t0 : Int) (events : List SweepEvent) :
    (sweepLoop t0 events).removeCalls
      = (List.range (events.takeWhile SweepEvent.isTick).length).map (fun i : Nat => t0 + (i : Int))
    ∧ (sweepLoop t0 events).t = t0 + ((events.takeWhile SweepEvent.isTick).length : Int)
    ∧ List.Chain' (fun a b : Int => b = a + 1) (sweepLoop t0 events).removeCalls := by
  obtain ⟨h1, h2⟩ := foldl_sweepStep_running events (SweepState.start t0) rfl
  have h1s : (sweepLoop t0 events).removeCalls
      = (List.range (events.takeWhile SweepEvent.isTick).length).map
          (fun i : Nat => t0 + (i : Int)) := by
    unfold sweepLoop
    rw [h1]
    simp [SweepState.start]
  refine ⟨h1s, ?_, ?_⟩
  · unfold sweepLoop
    rw [h2]
    simp [SweepState.start]
  · rw [h1s]
    exact chain_succ_range t0 _

theorem mainServe_signal (cfg : Configuration) (sig : Signal) :
    ∃ started : ServerCall,
      mainServe cfg (.signal sig) = [started, .Shutdown HttpServer.zero 15]
      ∧ started.isShutdown = false
      ∧ started.server.Handler = some mainHandler := by
  unfold mainServe
  simp only
  split
  · exact ⟨_, rfl, rfl, rfl⟩
  · exact ⟨_, rfl, rfl, rfl⟩

/-- C13 (code defect): on SIGINT or SIGTERM `main` calls `Shutdown` with a
15-second deadline on its own `srv`, the zero `http.Server` (empty address, nil
handler), while the server that listens is another value, declared inside the
serving goroutine with the router as handler; the serving server is never shut
down. -/
theorem main_shutdown_misses_serving_server (cfg : Configuration) (sig : Signal) :
    ∃ started : ServerCall,
      mainServe cfg (.signal sig)
        = [started, .Shutdown { Addr := "", Handler := none } 15]
      ∧ started.isShutdown = false
      ∧ started.server.Handler = some mainHandler
      ∧ started.server ≠ { Addr := "", Handler := none }
      ∧ (mainServe cfg (.signal sig)).all
          (fun c => !(c.isShutdown && c.server == started.server)) = true := by
  obtain ⟨started, h1, h2, h3⟩ := mainServe_signal cfg sig
  have hne : started.server ≠ { Addr := "", Handler := none } := by
    intro h
    rw [h] at h3
    cases h3
  refine ⟨started, h1, h2, h3, hne, ?_⟩
  rw [h1]
  have hne2 : (HttpServer.zero == started.server) = false := by
    simp only [beq_eq_false_iff_ne, ne_eq]
    exact fun h => hne h.symm
  show ((!(started.isShutdown && started.server == started.server))
    && ((!(true && (HttpServer.zero == started.server))) && true)) = true
  rw [h2, hne2]
  rfl

end Vesper
